import Mathlib

/-!
Shallow embedding of the europepstrans model-assembly layer:
`europepstrans/tools/io.py` (the annuity calculator `epc`),
`europepstrans/model/constraints.py` (the emission-cap constraint builder)
and `europepstrans/model/build.py` (bus registry and technology attachers).

Numbers are modelled as exact rationals (the Python code computes with
IEEE floats / pandas scalars; every claim checked here involves only
exactly representable values and algebraic identities, so ℚ is faithful).
Python's `x / y` raising `ZeroDivisionError` at `y = 0` is modelled by an
`Except String` result.  Lifetimes appear only as integer exponents and
are modelled as `ℤ`.  Python dicts and pandas tables keyed by strings are
modelled as association lists looked up with `List.lookup`; a missing key
(`KeyError`) is an `Except.error`.  Node constructors (`Bus`, `Source`,
`Sink`, `LinearTransformer`, `Storage`) register side effects on the
energy system; we model a builder call as the list of node records it
creates, in creation order, paired with an `Option String` holding the
first uncaught exception (nodes created before the exception are kept,
as in Python).
-/

namespace EuropePSTrans

/-- Python scalar division: raises `ZeroDivisionError` when the divisor is
zero, otherwise returns the quotient. -/
def pydiv (a b : ℚ) : Except String ℚ :=
  if b = 0 then .error "ZeroDivisionError" else .ok (a / b)

/-- `epc(capex, wacc, lifetime)` from `europepstrans/tools/io.py`:
`capex * (wacc * (1 + wacc) ** lifetime) / ((1 + wacc) ** lifetime - 1)`.
The source performs no input validation and has no special case for
`wacc = 0`; the division is the plain Python `/`. -/
def epc (capex wacc : ℚ) (lifetime : ℤ) : Except String ℚ :=
  pydiv (capex * (wacc * (1 + wacc) ^ lifetime)) ((1 + wacc) ^ lifetime - 1)

/-! ## Emission cap constraint (`europepstrans/model/constraints.py`) -/

/-- The fixed emission-factor table `co2_eq` from `emission_cap`:
`{'coal': 0.361, 'natural_gas': 0.204}` (insertion order preserved). -/
def co2_eq : List (String × ℚ) := [("coal", 361/1000), ("natural_gas", 204/1000)]

/-- The flow variable `om.flow._data[(groups[tech + '_source'], groups[tech + '_bus'], t)]`
is modelled as a function from the two node labels and the time step to the
flow value. -/
def flowVar (flow : String → String → ℕ → ℚ) (tech : String) (t : ℕ) : ℚ :=
  flow (tech ++ "_source") (tech ++ "_bus") t

/-- Left-hand side of the emission cap: the generator-expression sum in
`emission_cap`, over `tech in co2_eq.keys()` and `t in range(0, periods)`,
of flow(tech at t) times `co2_eq[tech]`. -/
def emission_lhs (flow : String → String → ℕ → ℚ) (periods : ℕ) : ℚ :=
  (co2_eq.flatMap (fun p =>
      (List.range periods).map (fun t => flowVar flow p.1 t * p.2))).sum

/-- The constraint `emission_cap` installs: `emission_lhs <= cap`. -/
def emission_cap (flow : String → String → ℕ → ℚ) (periods : ℕ) (cap : ℚ) : Prop :=
  emission_lhs flow periods ≤ cap

/-- The concrete two-period scenario of the spec: coal source→bus flow
`[10, 20]`, natural-gas source→bus flow `[5, 5]`, all other flows zero. -/
def exampleFlow (src _bus : String) (t : ℕ) : ℚ :=
  if src = "coal_source" then (if t = 0 then 10 else 20)
  else if src = "natural_gas_source" then 5
  else 0

/-! ## Bus registry (`create_buses` in `europepstrans/model/build.py`) -/

/-- The Python values the excess-policy dict can hold; `create_buses`
tests them with `excess.get(bus, None) is True`, an identity comparison
that only the boolean `True` passes (in particular the integer `1` does
not, although it is truthy and `1 == True` in Python). -/
inductive PyVal where
  | pbool (b : Bool)
  | pint (n : ℤ)
  | pstr (s : String)
  | pnone
deriving DecidableEq

/-- `excess.get(bus, None) is True`: `none` models an absent key. -/
def pyIsTrue : Option PyVal → Bool
  | some (.pbool true) => true
  | _ => false

/-- A record of each node `create_buses` constructs, in creation order:
global fuel buses, global sources (with their `variable_costs`), regional
buses, excess sinks (a `Sink` with an unconstrained `Flow()` input), and
global-to-region transformers (with their `conversion_factors` entry). -/
inductive BCreated where
  | gbus (carrier : String)
  | gsource (carrier : String) (variable_costs : ℚ)
  | rbus (carrier region : String)
  | excessSink (carrier region : String)
  | g2r (carrier region : String) (conversion_factor : ℚ)
deriving DecidableEq

/-- The inner dict `buses[region]`: carrier ↦ bus label, in insertion
order (a Python dict). -/
abbrev RegionMap := List (String × String)

/-- The bus registry `buses`: region ↦ `RegionMap`, in insertion order
(the `"global"` pseudo-region first, as `create_buses` builds it). -/
abbrev Registry := List (String × RegionMap)

/-- `global_buses = ['natural_gas', 'coal', 'uranium']` in `create_buses`. -/
def global_buses : List String := ["natural_gas", "coal", "uranium"]

/-- The default excess policy `excess={'electricity': True}`. -/
def default_excess : String → Option PyVal :=
  fun c => if c = "electricity" then some (.pbool true) else none

/-- The body of the per-(region, label) loop of `create_buses`: one
regional `Bus`, then an excess `Sink` if the excess policy holds the exact
boolean `True` for this label, then a global-to-region `LinearTransformer`
with conversion factor 1 if the label is a global carrier. -/
def bus_objs (excess : String → Option PyVal) (c r : String) : List BCreated :=
  BCreated.rbus c r ::
    ((if pyIsTrue (excess c) then [BCreated.excessSink c r] else []) ++
     (if c ∈ global_buses then [BCreated.g2r c r 1] else []))

/-- `create_buses(labels, regions, costs, excess)`: first the global
buses and sources (one pair per label that is a global carrier, at
`variable_costs = costs[bus]`), then the per-region loop; also returns
the registry dict it builds (`buses['global']` first, then one entry per
region mapping each label to its bus). -/
def create_buses (labels regions : List String) (costs : String → ℚ)
    (excess : String → Option PyVal := default_excess) :
    List BCreated × Registry :=
  ((labels.filter (fun c => decide (c ∈ global_buses))).flatMap
      (fun c => [BCreated.gbus c, BCreated.gsource c (costs c)])
    ++ regions.flatMap (fun r => labels.flatMap (fun c => bus_objs excess c r)),
   ("global", (labels.filter (fun c => decide (c ∈ global_buses))).map
        (fun c => (c, c ++ "_bus")))
      :: regions.map (fun r => (r, labels.map (fun c => (c, c ++ "_" ++ r)))))

/-- Recognizes a global-to-region transformer for carrier `c` and region
`r`, with any conversion factor. -/
def isG2R (c r : String) : BCreated → Bool
  | .g2r c' r' _ => c' == c && r' == r
  | _ => false

/-! ## Region defaulting of the technology attachers -/

/-- `[x for x in list(buses.keys()) if x is not 'global']`.  The identity
comparison `is not 'global'` coincides with inequality here because both
the registry key and the literal are interned identifier-like string
constants in CPython. -/
def keys_except_global (buses : Registry) : List String :=
  (buses.map Prod.fst).filter (fun x => decide (x ≠ "global"))

/-- Default regions of `create_res_feeders` (build.py line 98). -/
def res_default_regions (buses : Registry) : List String :=
  keys_except_global buses

/-- Default regions of `create_transformers` (build.py line 137). -/
def transformers_default_regions (buses : Registry) : List String :=
  keys_except_global buses

/-- Default regions of `create_storages` (build.py line 232). -/
def storages_default_regions (buses : Registry) : List String :=
  keys_except_global buses

/-- Default regions of `create_ptg_objects` (build.py line 290). -/
def ptg_default_regions (buses : Registry) : List String :=
  keys_except_global buses

/-- `pandas.Index.unique`: first occurrence of each value, in order. -/
def pd_unique (l : List String) : List String :=
  l.foldl (fun acc x => if x ∈ acc then acc else acc ++ [x]) []

/-- Default regions of `create_demands` (build.py line 174):
`data.index.get_level_values('region').unique()` — taken from the
timeseries index, not from the bus registry.  The multi-index
`(region, timestep)` is modelled as a list of pairs. -/
def demands_default_regions (dataIndex : List (String × ℕ)) : List String :=
  pd_unique (dataIndex.map Prod.fst)

/-! ## Tables and fallible lookups -/

/-- A row of the cost table (`epc` already computed and cached). -/
structure CostRow where
  opex_var : ℚ
  opex_fix : ℚ
  epc : ℚ
deriving DecidableEq

abbrev CostTable := List (String × CostRow)

/-- A row of the efficiency table. -/
structure EffRow where
  conversion_factor : ℚ
deriving DecidableEq

abbrev EffTable := List (String × EffRow)

/-- A row of the storage parameter table. -/
structure StorageRow where
  capacity_loss : ℚ
  efficiency_in : ℚ
  efficiency_out : ℚ
  energy_power_ratio_in : ℚ
  energy_power_ratio_out : ℚ
deriving DecidableEq

abbrev StorageTable := List (String × StorageRow)

/-- `table.loc[key]` / `dict[key]`: raises `KeyError` on a missing key. -/
def locE {α : Type} (tbl : List (String × α)) (key : String) : Except String α :=
  match tbl.lookup key with
  | some v => .ok v
  | none => .error ("KeyError: " ++ key)

/-- Whether an `Except` carries an error. -/
def isErr {α : Type} : Except String α → Bool
  | .error _ => true
  | .ok _ => false

/-- Runs a loop of fallible node constructions in order: nodes created
before the first uncaught exception are kept (they were registered on the
energy system before the raise), the rest of the loop never runs. -/
def runSteps {α : Type} : List (Except String α) → List α × Option String
  | [] => ([], none)
  | .error e :: _ => ([], some e)
  | .ok a :: rest =>
    let r := runSteps rest
    (a :: r.1, r.2)

/-! ## Dispatchable transformers (`create_transformers`) -/

/-- A `LinearTransformer` power-plant node: fuel-bus input, electricity
output with `variable_costs` and an `Investment(ep_costs = epc + opex_fix)`,
and `conversion_factors = efficiencies.loc[tech]['conversion_factor']`. -/
structure PPTransformer where
  tech : String
  region : String
  fuel : String
  opex_var : ℚ
  ep_costs : ℚ
  conversion_factor : ℚ
deriving DecidableEq

/-- One `LinearTransformer(...)` call of `create_transformers`, with the
lookups in Python's argument evaluation order: `buses[region]`,
`buses[region][fuel]`, `buses[region]['electricity']`, the three cost
cells, `efficiencies.loc[tech]`.  A missing key raises before the node is
constructed, so a failed call registers nothing. -/
def mk_pp_transformer (buses : Registry) (costs : CostTable)
    (efficiencies : EffTable) (region tech fuel : String) :
    Except String PPTransformer := do
  let rmap ← locE buses region
  let _fuelBus ← locE rmap fuel
  let _elBus ← locE rmap "electricity"
  let crow ← locE costs tech
  let erow ← locE efficiencies tech
  .ok ⟨tech, region, fuel, crow.opex_var, crow.epc + crow.opex_fix,
       erow.conversion_factor⟩

/-- `create_transformers(buses, costs, efficiencies, technologies, regions)`:
the outer loop is over regions, the inner over the technology→fuel dict in
insertion order. -/
def create_transformers (buses : Registry) (costs : CostTable)
    (efficiencies : EffTable) (technologies : List (String × String))
    (regions : Option (List String) := none) :
    List PPTransformer × Option String :=
  runSteps ((regions.getD (transformers_default_regions buses)).flatMap
    (fun region => technologies.map (fun p =>
      mk_pp_transformer buses costs efficiencies region p.1 p.2)))

/-! ## Storages (`create_storages`) -/

/-- A `Storage` node as `create_storages` builds it. -/
structure StorageObj where
  tech : String
  region : String
  opex_var : ℚ
  capacity_loss : ℚ
  initial_capacity : ℚ
  nominal_input_capacity_ratio : ℚ
  nominal_output_capacity_ratio : ℚ
  inflow_conversion_factor : ℚ
  outflow_conversion_factor : ℚ
  ep_costs : ℚ
deriving DecidableEq

/-- One `Storage(...)` call of `create_storages`: both flows attach to the
region's electricity bus at `opex_var`; the capacity ratios are the
inverted `energy_power_ratio_in/out` (a Python division, so a zero ratio
would raise). -/
def mk_storage (buses : Registry) (parameter : StorageTable)
    (costs : CostTable) (region tech : String) : Except String StorageObj := do
  let rmap ← locE buses region
  let _elBus ← locE rmap "electricity"
  let crow ← locE costs tech
  let prow ← locE parameter tech
  let nicr ← pydiv 1 prow.energy_power_ratio_in
  let nocr ← pydiv 1 prow.energy_power_ratio_out
  .ok ⟨tech, region, crow.opex_var, prow.capacity_loss, 0, nicr, nocr,
       prow.efficiency_in, prow.efficiency_out, crow.epc + crow.opex_fix⟩

/-- `create_storages(buses, parameter, technologies, costs, regions)`. -/
def create_storages (buses : Registry) (parameter : StorageTable)
    (technologies : List String) (costs : CostTable)
    (regions : Option (List String) := none) :
    List StorageObj × Option String :=
  runSteps ((regions.getD (storages_default_regions buses)).flatMap
    (fun region => technologies.map (fun tech =>
      mk_storage buses parameter costs region tech)))

/-! ## Power-to-gas chain (`create_ptg_objects`) -/

/-- The nodes `create_ptg_objects` builds per region, besides the new sng
bus itself: the electricity→sng `LinearTransformer`, the lossless
sng→natural_gas `LinearTransformer` (with its `Investment(ep_costs)` and
its `conversion_factors` entry), and the gas `Storage` on the sng bus. -/
inductive PtgObj where
  | ptgTransformer (region : String) (opex_var ep_costs conversion_factor : ℚ)
  | sngToNaturalGas (region : String) (ep_costs conversion_factor : ℚ)
  | gasStorage (region : String) (opex_var capacity_loss initial_capacity
      nicr nocr efficiency_in efficiency_out ep_costs : ℚ)
deriving DecidableEq

/-- Python dict assignment `d[k] = v`: overwrite in place if the key
exists, otherwise append in insertion order. -/
def dict_insert (m : RegionMap) (k v : String) : RegionMap :=
  if (m.lookup k).isSome then m.map (fun p => if p.1 = k then (k, v) else p)
  else m ++ [(k, v)]

/-- Mutation of the inner dict `buses[region]` seen from the outer dict. -/
def registry_update (reg : Registry) (r : String) (m : RegionMap) : Registry :=
  reg.map (fun p => if p.1 = r then (r, m) else p)

/-- The node constructions of one iteration of `create_ptg_objects`'s
region loop, run after the sng bus (`rmap'` already contains it) has been
inserted into the registry: the ptg transformer (electricity input, sng
output at `costs.loc['ptg']` with `efficiencies.loc['ptg']`), the ideal
sng→natural_gas transformer (`Investment(ep_costs=0)`, conversion factor
1), and the gas storage (`storage_parameter.loc['gas']`,
`costs.loc['gas']`). -/
def ptg_nodes (efficiencies : EffTable) (storage_parameter : StorageTable)
    (costs : CostTable) (rmap' : RegionMap) (region : String) :
    Except String (List PtgObj) := do
  let _elBus ← locE rmap' "electricity"
  let cptg ← locE costs "ptg"
  let eptg ← locE efficiencies "ptg"
  let _gasBus ← locE rmap' "natural_gas"
  let cgas ← locE costs "gas"
  let sgas ← locE storage_parameter "gas"
  let nicr ← pydiv 1 sgas.energy_power_ratio_in
  let nocr ← pydiv 1 sgas.energy_power_ratio_out
  .ok [PtgObj.ptgTransformer region cptg.opex_var (cptg.epc + cptg.opex_fix)
         eptg.conversion_factor,
       PtgObj.sngToNaturalGas region 0 1,
       PtgObj.gasStorage region cgas.opex_var sgas.capacity_loss 0 nicr nocr
         sgas.efficiency_in sgas.efficiency_out (cgas.epc + cgas.opex_fix)]

/-- One iteration of the region loop of `create_ptg_objects`: the sng bus
is created and assigned into `buses[region]` first (a registry mutation
that survives any later exception), then the three nodes are built. -/
def ptg_region_step (efficiencies : EffTable) (storage_parameter : StorageTable)
    (costs : CostTable) (reg : Registry) (region : String) :
    Registry × List PtgObj × Option String :=
  match reg.lookup region with
  | none => (reg, [], some ("KeyError: " ++ region))
  | some rmap =>
    let rmap' := dict_insert rmap "sng" ("sng_" ++ region)
    let reg' := registry_update reg region rmap'
    match ptg_nodes efficiencies storage_parameter costs rmap' region with
    | .error e => (reg', [], some e)
    | .ok objs => (reg', objs, none)

/-- The region loop of `create_ptg_objects`, threading the mutated
registry; an uncaught exception stops the loop. -/
def create_ptg_go (efficiencies : EffTable) (storage_parameter : StorageTable)
    (costs : CostTable) : Registry → List String →
    Registry × List PtgObj × Option String
  | reg, [] => (reg, [], none)
  | reg, r :: rs =>
    match ptg_region_step efficiencies storage_parameter costs reg r with
    | (reg', objs, some e) => (reg', objs, some e)
    | (reg', objs, none) =>
      let t := create_ptg_go efficiencies storage_parameter costs reg' rs
      (t.1, objs ++ t.2.1, t.2.2)

/-- `create_ptg_objects(buses, efficiencies, storage_parameter, costs,
regions)`. -/
def create_ptg_objects (buses : Registry) (efficiencies : EffTable)
    (storage_parameter : StorageTable) (costs : CostTable)
    (regions : Option (List String) := none) :
    Registry × List PtgObj × Option String :=
  create_ptg_go efficiencies storage_parameter costs buses
    (regions.getD (ptg_default_regions buses))

/-! # Theorems -/

/-! ## Helper lemmas -/

/-- Summing a function over `List.range` equals the `Finset.range` sum. -/
theorem list_range_sum (f : ℕ → ℚ) (n : ℕ) :
    ((List.range n).map f).sum = ∑ t ∈ Finset.range n, f t := by
  induction n with
  | zero => simp
  | succ n ih => simp [List.range_succ, Finset.sum_range_succ, ih]

/-- The identity test of the excess policy passes exactly on the boolean
`True`. -/
theorem pyIsTrue_iff (o : Option PyVal) : pyIsTrue o = true ↔ o = some (.pbool true) := by
  rcases o with _ | v
  · simp [pyIsTrue]
  · rcases v with b | n | s | _
    · cases b <;> simp [pyIsTrue]
    · simp [pyIsTrue]
    · simp [pyIsTrue]
    · simp [pyIsTrue]

/-- Counting occurrences distributes over a `flatMap`. -/
theorem count_flatMap_str {α : Type} [BEq α] (l : List String)
    (f : String → List α) (x : α) :
    ((l.flatMap f).count x) = (l.map (fun b => (f b).count x)).sum := by
  induction l with
  | nil => rfl
  | cons a l ih => simp [List.flatMap_cons, List.count_append, ih]

/-- `countP` distributes over a `flatMap`. -/
theorem countP_flatMap_str {α : Type} (l : List String)
    (f : String → List α) (p : α → Bool) :
    ((l.flatMap f).countP p) = (l.map (fun b => (f b).countP p)).sum := by
  induction l with
  | nil => rfl
  | cons a l ih => simp [List.flatMap_cons, List.countP_append, ih]

/-- Over a duplicate-free list, a sum whose terms vanish except at one
element collapses to that term. -/
theorem sum_map_eq_of_single {l : List String} {r : String} (hl : l.Nodup)
    (hr : r ∈ l) (g : String → ℕ) (h0 : ∀ x ∈ l, x ≠ r → g x = 0) :
    (l.map g).sum = g r := by
  induction l with
  | nil => cases hr
  | cons a l ih =>
    rw [List.nodup_cons] at hl
    rcases List.mem_cons.mp hr with h | h
    · subst h
      have hz : (l.map g).sum = 0 := by
        apply List.sum_eq_zero
        intro x hx
        rw [List.mem_map] at hx
        obtain ⟨y, hy, rfl⟩ := hx
        exact h0 y (List.mem_cons_of_mem _ hy) (fun he => hl.1 (he ▸ hy))
      simp [hz]
    · have ha : g a = 0 :=
        h0 a (List.mem_cons_self a l) (fun he => hl.1 (by rw [he]; exact h))
      have := ih hl.2 h (fun x hx hne => h0 x (List.mem_cons_of_mem _ hx) hne)
      simp [ha, this]

/-- The loop body creates exactly one regional bus for its own pair. -/
theorem count_rbus_inner_eq (excess : String → Option PyVal) (c r : String) :
    (bus_objs excess c r).count (BCreated.rbus c r) = 1 := by
  unfold bus_objs
  by_cases hg : c ∈ global_buses <;>
    cases hpy : pyIsTrue (excess c) <;>
      simp [hg, hpy, List.count_cons, List.count_append]

/-- The loop body creates no regional bus for a different pair. -/
theorem count_rbus_inner_ne (excess : String → Option PyVal) {c r c' r' : String}
    (h : ¬(c' = c ∧ r' = r)) :
    (bus_objs excess c' r').count (BCreated.rbus c r) = 0 := by
  unfold bus_objs
  by_cases hg : c' ∈ global_buses <;>
    cases hpy : pyIsTrue (excess c') <;>
      simp [hg, hpy, List.count_cons, List.count_append] <;>
        exact fun h1 h2 => h ⟨h1, h2⟩

/-- For a global carrier, the loop body creates exactly one
global-to-region transformer for its own pair. -/
theorem countP_g2r_inner_eq (excess : String → Option PyVal) (c r : String)
    (hg : c ∈ global_buses) :
    (bus_objs excess c r).countP (isG2R c r) = 1 := by
  unfold bus_objs
  cases hpy : pyIsTrue (excess c) <;>
    simp [hg, hpy, List.countP_cons, List.countP_append, isG2R]

/-- The loop body creates no global-to-region transformer for a different
pair. -/
theorem countP_g2r_inner_ne (excess : String → Option PyVal) {c r c' r' : String}
    (h : ¬(c' = c ∧ r' = r)) :
    (bus_objs excess c' r').countP (isG2R c r) = 0 := by
  unfold bus_objs
  by_cases hg : c' ∈ global_buses <;>
    cases hpy : pyIsTrue (excess c') <;>
      simp [hg, hpy, List.countP_cons, List.countP_append, isG2R] <;>
        exact fun h1 h2 => h ⟨h1, h2⟩

/-- For a global carrier, the loop body's transformer has conversion
factor 1 — counted as the exact node. -/
theorem count_g2r1_inner_eq (excess : String → Option PyVal) (c r : String)
    (hg : c ∈ global_buses) :
    (bus_objs excess c r).count (BCreated.g2r c r 1) = 1 := by
  unfold bus_objs
  cases hpy : pyIsTrue (excess c) <;>
    simp [hg, hpy, List.count_cons, List.count_append]

/-- The loop body creates no conversion-factor-1 transformer for a
different pair. -/
theorem count_g2r1_inner_ne (excess : String → Option PyVal) {c r c' r' : String}
    (h : ¬(c' = c ∧ r' = r)) :
    (bus_objs excess c' r').count (BCreated.g2r c r 1) = 0 := by
  unfold bus_objs
  by_cases hg : c' ∈ global_buses <;>
    cases hpy : pyIsTrue (excess c') <;>
      simp [hg, hpy, List.count_cons, List.count_append] <;>
        exact fun h1 h2 => h ⟨h1, h2⟩

/-- Counting over the region×label double loop collapses to the single
loop body of a given pair when all other bodies contribute nothing. -/
theorem count_grid (x : BCreated) (labels regions : List String)
    (excess : String → Option PyVal) (hl : labels.Nodup) (hr : regions.Nodup)
    {c r : String} (hc : c ∈ labels) (hrr : r ∈ regions)
    (hne : ∀ c' r', ¬(c' = c ∧ r' = r) → (bus_objs excess c' r').count x = 0) :
    (regions.flatMap (fun r' => labels.flatMap (fun c' => bus_objs excess c' r'))).count x
      = (bus_objs excess c r).count x := by
  rw [count_flatMap_str]
  rw [sum_map_eq_of_single hr hrr _ ?h0]
  case h0 =>
    intro z hz hzr
    rw [count_flatMap_str]
    apply List.sum_eq_zero
    intro y hy
    rw [List.mem_map] at hy
    obtain ⟨cc, hcc, rfl⟩ := hy
    exact hne cc z (fun hp => hzr hp.2)
  rw [count_flatMap_str]
  rw [sum_map_eq_of_single hl hc _ ?h1]
  case h1 =>
    intro cc hcc hccne
    exact hne cc r (fun hp => hccne hp.1)

/-- `countP` version of `count_grid`. -/
theorem countP_grid (p : BCreated → Bool) (labels regions : List String)
    (excess : String → Option PyVal) (hl : labels.Nodup) (hr : regions.Nodup)
    {c r : String} (hc : c ∈ labels) (hrr : r ∈ regions)
    (hne : ∀ c' r', ¬(c' = c ∧ r' = r) → (bus_objs excess c' r').countP p = 0) :
    (regions.flatMap (fun r' => labels.flatMap (fun c' => bus_objs excess c' r'))).countP p
      = (bus_objs excess c r).countP p := by
  rw [countP_flatMap_str]
  rw [sum_map_eq_of_single hr hrr _ ?h0]
  case h0 =>
    intro z hz hzr
    rw [countP_flatMap_str]
    apply List.sum_eq_zero
    intro y hy
    rw [List.mem_map] at hy
    obtain ⟨cc, hcc, rfl⟩ := hy
    exact hne cc z (fun hp => hzr hp.2)
  rw [countP_flatMap_str]
  rw [sum_map_eq_of_single hl hc _ ?h1]
  case h1 =>
    intro cc hcc hccne
    exact hne cc r (fun hp => hccne hp.1)

/-- The global-source prelude creates no regional buses. -/
theorem count_rbus_globals (labels : List String) (costs : String → ℚ) (c r : String) :
    (((labels.filter (fun c => decide (c ∈ global_buses))).flatMap
      (fun c => [BCreated.gbus c, BCreated.gsource c (costs c)])).count
        (BCreated.rbus c r)) = 0 := by
  rw [List.count_eq_zero]
  simp [List.mem_flatMap]

/-- The global-source prelude creates no global-to-region transformers. -/
theorem countP_g2r_globals (labels : List String) (costs : String → ℚ) (c r : String) :
    (((labels.filter (fun c => decide (c ∈ global_buses))).flatMap
      (fun c => [BCreated.gbus c, BCreated.gsource c (costs c)])).countP (isG2R c r)) = 0 := by
  rw [List.countP_eq_zero]
  intro a ha
  rw [List.mem_flatMap] at ha
  obtain ⟨cc, hcc, hmem⟩ := ha
  simp only [List.mem_cons, List.not_mem_nil, or_false] at hmem
  rcases hmem with rfl | rfl <;> simp [isG2R]

/-- The global-source prelude creates no conversion-factor-1 transformers. -/
theorem count_g2r1_globals (labels : List String) (costs : String → ℚ) (c r : String) :
    (((labels.filter (fun c => decide (c ∈ global_buses))).flatMap
      (fun c => [BCreated.gbus c, BCreated.gsource c (costs c)])).count
        (BCreated.g2r c r 1)) = 0 := by
  rw [List.count_eq_zero]
  simp [List.mem_flatMap]

/-- `Except` bind on a success. -/
theorem except_bind_ok {α β : Type} (a : α) (f : α → Except String β) :
    (Except.ok a >>= f) = f a := rfl

/-- `Except` bind on an error short-circuits. -/
theorem except_bind_error {α β : Type} (e : String) (f : α → Except String β) :
    ((Except.error e : Except String α) >>= f) = Except.error e := rfl

/-- Every node a loop run keeps came from a successful construction
step. -/
theorem mem_runSteps {α : Type} {steps : List (Except String α)} {a : α}
    (h : a ∈ (runSteps steps).1) : Except.ok a ∈ steps := by
  induction steps with
  | nil => simp [runSteps] at h
  | cons s rest ih =>
    cases s with
    | error e => simp [runSteps] at h
    | ok b =>
      simp only [runSteps] at h
      rcases List.mem_cons.mp h with rfl | h'
      · exact List.mem_cons_self _ _
      · exact List.mem_cons_of_mem _ (ih h')

/-- If any step of a loop raises, the loop run reports an error. -/
theorem runSteps_err_of_mem {α : Type} {steps : List (Except String α)}
    {s : Except String α} (hs : s ∈ steps) (he : isErr s = true) :
    (runSteps steps).2.isSome = true := by
  induction steps with
  | nil => cases hs
  | cons x rest ih =>
    cases x with
    | error e => simp [runSteps]
    | ok b =>
      rcases List.mem_cons.mp hs with rfl | h'
      · simp [isErr] at he
      · simpa [runSteps] using ih h'

/-- A successful `LinearTransformer` construction implies the cost row of
its technology existed, and the node is labelled with that technology. -/
theorem mk_pp_transformer_ok {buses : Registry} {costs : CostTable}
    {effs : EffTable} {region tech fuel : String} {obj : PPTransformer}
    (h : mk_pp_transformer buses costs effs region tech fuel = .ok obj) :
    (costs.lookup tech).isSome = true ∧ obj.tech = tech := by
  unfold mk_pp_transformer locE at h
  rcases h1 : buses.lookup region with _ | rmap <;> rw [h1] at h <;>
    simp only [except_bind_ok, except_bind_error] at h
  · cases h
  rcases h2 : rmap.lookup fuel with _ | fb <;> rw [h2] at h <;>
    simp only [except_bind_ok, except_bind_error] at h
  · cases h
  rcases h3 : rmap.lookup "electricity" with _ | eb <;> rw [h3] at h <;>
    simp only [except_bind_ok, except_bind_error] at h
  · cases h
  rcases h4 : costs.lookup tech with _ | crow <;> rw [h4] at h <;>
    simp only [except_bind_ok, except_bind_error] at h
  · cases h
  rcases h5 : effs.lookup tech with _ | erow <;> rw [h5] at h <;>
    simp only [except_bind_ok, except_bind_error] at h
  · cases h
  cases h
  exact ⟨rfl, rfl⟩

/-- A technology missing from the cost table makes every transformer
construction for it raise (some lookup fails before the node exists). -/
theorem mk_pp_transformer_err {buses : Registry} {costs : CostTable}
    {effs : EffTable} {region tech fuel : String}
    (hmiss : costs.lookup tech = none) :
    isErr (mk_pp_transformer buses costs effs region tech fuel) = true := by
  unfold mk_pp_transformer locE
  rcases h1 : buses.lookup region with _ | rmap <;>
    simp only [except_bind_ok, except_bind_error, isErr]
  rcases h2 : rmap.lookup fuel with _ | fb <;>
    simp only [except_bind_ok, except_bind_error, isErr]
  rcases h3 : rmap.lookup "electricity" with _ | eb <;>
    simp only [except_bind_ok, except_bind_error, isErr]
  rw [hmiss]
  simp only [except_bind_ok, except_bind_error, isErr]

/-- Membership in the first-occurrence deduplicating fold. -/
theorem mem_foldl_unique (l : List String) (acc : List String) (x : String) :
    x ∈ l.foldl (fun a y => if y ∈ a then a else a ++ [y]) acc ↔
      x ∈ acc ∨ x ∈ l := by
  induction l generalizing acc with
  | nil => simp
  | cons a l ih =>
    simp only [List.foldl_cons, ih, List.mem_cons]
    by_cases h : a ∈ acc
    · rw [if_pos h]
      constructor
      · rintro (h1 | h1)
        · exact Or.inl h1
        · exact Or.inr (Or.inr h1)
      · rintro (h1 | h1 | h1)
        · exact Or.inl h1
        · exact Or.inl (h1 ▸ h)
        · exact Or.inr h1
    · rw [if_neg h]
      simp only [List.mem_append, List.mem_singleton]
      tauto

/-! ## Claim theorems -/

/-- Claim C1: the emission cap constrains, for exactly the fuels coal
(factor 0.361) and natural_gas (factor 0.204), the sum over every time
step `t < periods` of the flow from that fuel's global source to its
global bus times the fuel's emission factor, to be `≤ cap`; on the
two-period scenario with coal flows `[10, 20]` and natural-gas flows
`[5, 5]` the left-hand side is `12.87 = 1287/100`. -/
theorem emission_cap_exact_fuels :
    (∀ (flow : String → String → ℕ → ℚ) (periods : ℕ) (cap : ℚ),
      emission_cap flow periods cap ↔
        ((∑ t ∈ Finset.range periods,
            flow "coal_source" "coal_bus" t * (361/1000)) +
         ∑ t ∈ Finset.range periods,
            flow "natural_gas_source" "natural_gas_bus" t * (204/1000)) ≤ cap)
    ∧ emission_lhs exampleFlow 2 = 1287/100 := by
  constructor
  · intro flow periods cap
    unfold emission_cap emission_lhs co2_eq flowVar
    simp [List.flatMap_cons, List.flatMap_nil, list_range_sum]
  · simp [emission_lhs, co2_eq, flowVar, exampleFlow, List.range_succ]
    norm_num

/-- Claim C2, counterexample: at `capex = 100`, `wacc = 0`,
`lifetime = 20` the annuity calculator does not return
`capex / lifetime = 5`; it hits the division by zero
(`(1+0)^20 - 1 = 0`), because the source has no special case for
`wacc = 0`. -/
theorem epc_zero_wacc_cex :
    epc 100 0 20 ≠ Except.ok (100/20) ∧
    epc 100 0 20 = Except.error "ZeroDivisionError" := by
  refine ⟨?_, ?_⟩ <;> simp [epc, pydiv]

/-- Claim C2 (amended): the annuity calculator has no special case for
`wacc = 0`: there it always fails with a division by zero instead of
returning `capex / lifetime`; for `wacc > 0` and `lifetime > 0` it
returns `capex * (wacc * (1+wacc)^lifetime) / ((1+wacc)^lifetime - 1)`. -/
theorem epc_formula :
    (∀ (capex : ℚ) (L : ℤ), epc capex 0 L = Except.error "ZeroDivisionError")
    ∧ (∀ (capex wacc : ℚ) (L : ℤ), 0 < wacc → 0 < L →
        epc capex wacc L =
          Except.ok (capex * (wacc * (1 + wacc) ^ L) / ((1 + wacc) ^ L - 1))) := by
  constructor
  · intro capex L
    simp [epc, pydiv]
  · intro capex wacc L hw hL
    have h1 : (1 : ℚ) < 1 + wacc := by linarith
    have h2 : (1 : ℚ) < (1 + wacc) ^ L := one_lt_zpow₀ h1 hL
    simp [epc, pydiv, sub_eq_zero, ne_of_gt h2]

/-- Witness for C2's amended theorem at `capex = 100`, `wacc = 1`,
`lifetime = 1`. -/
theorem epc_formula_witness :
    epc 100 1 1 =
      Except.ok (100 * (1 * (1 + 1) ^ (1 : ℤ)) / ((1 + 1) ^ (1 : ℤ) - 1)) :=
  epc_formula.2 100 1 1 (by norm_num) (by norm_num)

/-- Claim C7, counterexample: `lifetime = -5 ≤ 0` is not rejected: with
`capex = 100`, `wacc = 1/20` the annuity calculator raises no error at
all and returns the numeric value `-16000000/884101`. -/
theorem epc_negative_lifetime_cex :
    (-5 : ℤ) ≤ 0 ∧
    epc 100 (1/20) (-5) = Except.ok (-16000000/884101) := by
  constructor
  · norm_num
  · unfold epc pydiv
    norm_num

/-- Claim C7 (amended): the annuity calculator performs no validation of
`lifetime`: at `lifetime = 0` it fails with a `ZeroDivisionError` (never
a `ConfigurationError`, which does not exist in the code), and whenever
the denominator `(1+wacc)^lifetime - 1` is nonzero — in particular for
negative lifetimes with positive `wacc` — it returns a plain numeric
result. -/
theorem epc_no_lifetime_validation :
    (∀ capex wacc : ℚ, epc capex wacc 0 = Except.error "ZeroDivisionError")
    ∧ (∀ (capex wacc : ℚ) (L : ℤ), (1 + wacc) ^ L - 1 ≠ 0 →
        epc capex wacc L =
          Except.ok (capex * (wacc * (1 + wacc) ^ L) / ((1 + wacc) ^ L - 1))) := by
  constructor
  · intro capex wacc
    simp [epc, pydiv]
  · intro capex wacc L h
    simp [epc, pydiv, h]

/-- Witness for C7's amended theorem at `capex = 100`, `wacc = 1/20`,
`lifetime = -5`. -/
theorem epc_no_lifetime_validation_witness :
    epc 100 (1/20) (-5) =
      Except.ok (100 * ((1/20) * (1 + 1/20) ^ (-5 : ℤ)) /
        ((1 + 1/20) ^ (-5 : ℤ) - 1)) :=
  epc_no_lifetime_validation.2 100 (1/20) (-5) (by norm_num)

/-- Claim C4, counterexample: with a bus registry holding regions `a` and
`b` (plus `"global"`) but timeseries demand data only for region `a`, the
demand-sink attacher's default region set is `{a}`, not the registry keys
minus `"global"` = `{a, b}`: the two defaulting rules disagree on `b`. -/
theorem demands_default_regions_cex :
    "b" ∈ keys_except_global
        (create_buses ["electricity"] ["a", "b"] (fun _ => 0) default_excess).2
    ∧ "b" ∉ demands_default_regions [("a", 0), ("a", 1)] := by
  constructor <;> decide

/-- Claim C4 (amended): the attachers `create_res_feeders`,
`create_transformers`, `create_storages` and `create_ptg_objects` all
default the omitted `regions` argument to the bus-registry keys minus
`"global"`; `create_demands` alone defaults instead to the distinct
region values of the timeseries index, which need not coincide with the
registry keys. -/
theorem default_regions_contract :
    (∀ (buses : Registry) (x : String),
      (x ∈ res_default_regions buses ↔ x ∈ buses.map Prod.fst ∧ x ≠ "global")
      ∧ (x ∈ transformers_default_regions buses ↔
          x ∈ buses.map Prod.fst ∧ x ≠ "global")
      ∧ (x ∈ storages_default_regions buses ↔
          x ∈ buses.map Prod.fst ∧ x ≠ "global")
      ∧ (x ∈ ptg_default_regions buses ↔
          x ∈ buses.map Prod.fst ∧ x ≠ "global"))
    ∧ ∀ (dataIndex : List (String × ℕ)) (x : String),
        x ∈ demands_default_regions dataIndex ↔ x ∈ dataIndex.map Prod.fst := by
  constructor
  · intro buses x
    refine ⟨?_, ?_, ?_, ?_⟩ <;>
      simp [res_default_regions, transformers_default_regions,
        storages_default_regions, ptg_default_regions, keys_except_global,
        List.mem_filter]
  · intro idx x
    unfold demands_default_regions pd_unique
    rw [mem_foldl_unique]
    simp

/-- Claim C5: after `create_buses` runs on duplicate-free carrier labels
and regions, every pair `(c, r)` has exactly one regional `Bus`, and for
every global carrier among the labels exactly one `LinearTransformer`
connects the carrier's global bus to the region bus, and it has
conversion factor 1. -/
theorem create_buses_unique (labels regions : List String) (costs : String → ℚ)
    (excess : String → Option PyVal)
    (hl : labels.Nodup) (hr : regions.Nodup)
    (c r : String) (hc : c ∈ labels) (hrr : r ∈ regions) :
    (create_buses labels regions costs excess).1.count (BCreated.rbus c r) = 1
    ∧ (c ∈ global_buses →
        (create_buses labels regions costs excess).1.countP (isG2R c r) = 1
        ∧ (create_buses labels regions costs excess).1.count (BCreated.g2r c r 1) = 1) := by
  unfold create_buses
  refine ⟨?_, fun hg => ⟨?_, ?_⟩⟩
  · rw [List.count_append, count_rbus_globals,
      count_grid _ labels regions excess hl hr hc hrr
        (fun c' r' h => count_rbus_inner_ne excess h),
      count_rbus_inner_eq]
  · rw [List.countP_append, countP_g2r_globals,
      countP_grid _ labels regions excess hl hr hc hrr
        (fun c' r' h => countP_g2r_inner_ne excess h),
      countP_g2r_inner_eq excess c r hg]
  · rw [List.count_append, count_g2r1_globals,
      count_grid _ labels regions excess hl hr hc hrr
        (fun c' r' h => count_g2r1_inner_ne excess h),
      count_g2r1_inner_eq excess c r hg]

/-- Witness for C5 on `labels = [electricity, coal]`, `regions = [a]`,
at the global carrier `coal`. -/
theorem create_buses_unique_witness :
    (create_buses ["electricity", "coal"] ["a"] (fun _ => 0) default_excess).1.count
        (BCreated.rbus "coal" "a") = 1
    ∧ (create_buses ["electricity", "coal"] ["a"] (fun _ => 0) default_excess).1.countP
        (isG2R "coal" "a") = 1
    ∧ (create_buses ["electricity", "coal"] ["a"] (fun _ => 0) default_excess).1.count
        (BCreated.g2r "coal" "a" 1) = 1 := by
  have h := create_buses_unique ["electricity", "coal"] ["a"] (fun _ => 0)
    default_excess (by decide) (by decide) "coal" "a" (by decide) (by decide)
  exact ⟨h.1, (h.2 (by decide)).1, (h.2 (by decide)).2⟩

/-- Claim C3: calling `create_transformers` with a technology absent
from the cost table raises an uncaught lookup error (a Python
`KeyError`), and no node of that technology is created in any targeted
region — the "none" side of all-or-none atomicity, since the failing
lookup happens while the constructor arguments are evaluated, before the
node registers itself. -/
theorem create_transformers_missing_tech (buses : Registry) (costs : CostTable)
    (effs : EffTable) (technologies : List (String × String))
    (regions : Option (List String)) (t f : String)
    (htech : (t, f) ∈ technologies) (hmiss : costs.lookup t = none)
    (hne : regions.getD (transformers_default_regions buses) ≠ []) :
    (create_transformers buses costs effs technologies regions).2.isSome = true
    ∧ ∀ obj ∈ (create_transformers buses costs effs technologies regions).1,
        obj.tech ≠ t := by
  unfold create_transformers
  constructor
  · obtain ⟨r0, rs, hr0⟩ := List.exists_cons_of_ne_nil hne
    apply runSteps_err_of_mem (s := mk_pp_transformer buses costs effs r0 t f)
    · rw [List.mem_flatMap]
      refine ⟨r0, by rw [hr0]; exact List.mem_cons_self _ _, ?_⟩
      rw [List.mem_map]
      exact ⟨(t, f), htech, rfl⟩
    · exact mk_pp_transformer_err hmiss
  · intro obj hobj hot
    have hok := mem_runSteps hobj
    rw [List.mem_flatMap] at hok
    obtain ⟨r', hr', hm⟩ := hok
    rw [List.mem_map] at hm
    obtain ⟨p, hp, hmk⟩ := hm
    obtain ⟨hsome, htech'⟩ := mk_pp_transformer_ok hmk
    rw [← htech', hot, hmiss] at hsome
    cases hsome

/-- Witness for C3: one region, the technology `coal` mapped to fuel
`coal`, and an empty cost table — the run errors. -/
theorem create_transformers_missing_tech_witness :
    (create_transformers
      (create_buses ["electricity", "coal"] ["a"] (fun _ => 0) default_excess).2
      [] [] [("coal", "coal")] none).2.isSome = true :=
  (create_transformers_missing_tech
    (create_buses ["electricity", "coal"] ["a"] (fun _ => 0) default_excess).2
    [] [] [("coal", "coal")] none "coal" "coal"
    (by decide) (by decide) (by decide)).1

/-- Claim C8: for every region `r` and carrier `c` whose excess-policy
entry is the boolean `True`, `create_buses` attaches an excess `Sink`
(with an unconstrained input `Flow()`) to the bus `(c, r)`; the default
policy enables excess exactly for electricity. -/
theorem create_buses_excess_sink (labels regions : List String) (costs : String → ℚ)
    (excess : String → Option PyVal) (c r : String)
    (hc : c ∈ labels) (hrr : r ∈ regions)
    (he : excess c = some (PyVal.pbool true)) :
    BCreated.excessSink c r ∈ (create_buses labels regions costs excess).1
    ∧ (∀ c', pyIsTrue (default_excess c') = true ↔ c' = "electricity") := by
  constructor
  · unfold create_buses
    apply List.mem_append_right
    rw [List.mem_flatMap]
    refine ⟨r, hrr, ?_⟩
    rw [List.mem_flatMap]
    refine ⟨c, hc, ?_⟩
    unfold bus_objs
    have hpy : pyIsTrue (excess c) = true := (pyIsTrue_iff _).mpr he
    simp [hpy]
  · intro c'
    unfold default_excess
    by_cases h : c' = "electricity" <;> simp [h, pyIsTrue]

/-- Witness for C8 on `labels = [electricity]`, `regions = [a]`, with the
default excess policy. -/
theorem create_buses_excess_sink_witness :
    BCreated.excessSink "electricity" "a" ∈
      (create_buses ["electricity"] ["a"] (fun _ => 0) default_excess).1 :=
  (create_buses_excess_sink ["electricity"] ["a"] (fun _ => 0) default_excess
    "electricity" "a" (by decide) (by decide) (by decide)).1

/-- Claim C10: `create_buses` attaches an excess sink for a carrier only
when the excess mapping holds the exact boolean `True` for it: for any
other value — including the truthy integer `1`, which fails Python's
`is True` identity test — no excess sink is created for that carrier on
any region. -/
theorem create_buses_no_excess_sink (labels regions : List String)
    (costs : String → ℚ) (excess : String → Option PyVal) (c : String)
    (hv : excess c ≠ some (PyVal.pbool true)) (r : String) :
    BCreated.excessSink c r ∉ (create_buses labels regions costs excess).1 := by
  intro hmem
  unfold create_buses at hmem
  rw [List.mem_append] at hmem
  rcases hmem with h | h
  · rw [List.mem_flatMap] at h
    obtain ⟨cc, _, hm⟩ := h
    simp at hm
  · rw [List.mem_flatMap] at h
    obtain ⟨r', _, hm⟩ := h
    rw [List.mem_flatMap] at hm
    obtain ⟨c', _, hm⟩ := hm
    unfold bus_objs at hm
    cases hpy : pyIsTrue (excess c') <;> by_cases hg : c' ∈ global_buses <;>
      simp [hpy, hg] at hm <;>
      exact hv (by rw [hm.1]; exact (pyIsTrue_iff _).mp hpy)

/-- Witness for C10: with the policy mapping electricity to the integer
`1`, no excess sink is created. -/
theorem create_buses_no_excess_sink_witness :
    BCreated.excessSink "electricity" "a" ∉
      (create_buses ["electricity"] ["a"] (fun _ => 0)
        (fun _ => some (PyVal.pint 1))).1 :=
  create_buses_no_excess_sink ["electricity"] ["a"] (fun _ => 0)
    (fun _ => some (PyVal.pint 1)) "electricity" (by decide) "a"

/-- A key found in the left part of an appended association list is
found in the whole. -/
theorem lookup_append_some {α : Type} {l1 : List (String × α)} (l2 : List (String × α))
    {k : String} {v : α} (h : l1.lookup k = some v) : (l1 ++ l2).lookup k = some v := by
  induction l1 with
  | nil => simp [List.lookup] at h
  | cons p l ih =>
    rcases p with ⟨a, b⟩
    rw [List.cons_append, List.lookup_cons]
    rw [List.lookup_cons] at h
    cases hk : (k == a) with
    | true => rw [hk] at h; simpa using h
    | false => rw [hk] at h; exact ih h

/-- Appending a single entry with a different key does not change a
lookup. -/
theorem lookup_append_single_ne {α : Type} (l : List (String × α)) {k k' : String}
    (v : α) (h : k ≠ k') : (l ++ [(k', v)]).lookup k = l.lookup k := by
  induction l with
  | nil => simp [List.lookup_cons, beq_false_of_ne h, List.lookup]
  | cons p l ih =>
    rcases p with ⟨a, b⟩
    rw [List.cons_append, List.lookup_cons, List.lookup_cons]
    cases hk : (k == a) with
    | true => rfl
    | false => exact ih

/-- Appending a single entry with a fresh key makes its lookup succeed. -/
theorem lookup_append_single_eq {α : Type} {l : List (String × α)} {k : String}
    (v : α) (h : l.lookup k = none) : (l ++ [(k, v)]).lookup k = some v := by
  induction l with
  | nil => simp [List.lookup_cons]
  | cons p l ih =>
    rcases p with ⟨a, b⟩
    rw [List.lookup_cons] at h
    rw [List.cons_append, List.lookup_cons]
    cases hk : (k == a) with
    | true => rw [hk] at h; cases h
    | false => rw [hk] at h; exact ih h

/-- After updating a present region's inner dict, looking the region up
yields the new dict. -/
theorem registry_update_lookup_self {reg : Registry} {r : String} (m : RegionMap)
    (h : (reg.lookup r).isSome = true) :
    (registry_update reg r m).lookup r = some m := by
  induction reg with
  | nil => simp [List.lookup] at h
  | cons p l ih =>
    rcases p with ⟨a, b⟩
    rw [List.lookup_cons] at h
    by_cases hk : a = r
    · subst hk
      simp [registry_update, List.lookup_cons]
    · have hne : (r == a) = false := beq_false_of_ne (fun he => hk he.symm)
      rw [hne] at h
      unfold registry_update
      rw [List.map_cons]
      simp only [hk, if_false]
      rw [List.lookup_cons, hne]
      exact ih h

/-- Updating one region's inner dict leaves every other region's entry
unchanged. -/
theorem registry_update_lookup_other {reg : Registry} {r r' : String} (m : RegionMap)
    (h : r' ≠ r) : (registry_update reg r m).lookup r' = reg.lookup r' := by
  induction reg with
  | nil => simp [registry_update]
  | cons p l ih =>
    rcases p with ⟨a, b⟩
    unfold registry_update
    rw [List.map_cons]
    by_cases hk : a = r
    · subst hk
      simp only [if_true]
      rw [List.lookup_cons, List.lookup_cons, beq_false_of_ne h]
      exact ih
    · simp only [hk, if_false]
      rw [List.lookup_cons, List.lookup_cons]
      cases hk' : (r' == a) with
      | true => rfl
      | false => exact ih


/-- Claim C6: running `create_ptg_objects` for one region `r` whose
registry entry has no `sng` bus yet (and has the electricity and
natural_gas buses and all parameter rows it needs) terminates without
error and: the region's dict gains exactly the new entry
`sng ↦ sng_r` appended at the end (so it is present afterwards, the
carrier set grows by exactly one, and every previously existing carrier
still maps to its old bus), every other region's registry entry is
untouched, and a lossless sng→natural_gas `LinearTransformer` with
`Investment(ep_costs = 0)` and conversion factor 1 is among the created
nodes. -/
theorem create_ptg_mutation (reg : Registry) (efficiencies : EffTable)
    (storage_parameter : StorageTable) (costs : CostTable)
    (r : String) (rmap : RegionMap) (cptg cgas : CostRow) (eptg : EffRow)
    (sgas : StorageRow)
    (hreg : reg.lookup r = some rmap)
    (hsng : rmap.lookup "sng" = none)
    (hel : (rmap.lookup "electricity").isSome = true)
    (hng : (rmap.lookup "natural_gas").isSome = true)
    (hcp : costs.lookup "ptg" = some cptg)
    (hep : efficiencies.lookup "ptg" = some eptg)
    (hcg : costs.lookup "gas" = some cgas)
    (hsg : storage_parameter.lookup "gas" = some sgas)
    (hin : sgas.energy_power_ratio_in ≠ 0)
    (hout : sgas.energy_power_ratio_out ≠ 0) :
    (create_ptg_objects reg efficiencies storage_parameter costs (some [r])).2.2 = none
    ∧ (create_ptg_objects reg efficiencies storage_parameter costs
        (some [r])).1.lookup r = some (rmap ++ [("sng", "sng_" ++ r)])
    ∧ (rmap ++ [("sng", "sng_" ++ r)]).lookup "sng" = some ("sng_" ++ r)
    ∧ (rmap ++ [("sng", "sng_" ++ r)]).length = rmap.length + 1
    ∧ (∀ k, k ≠ "sng" →
        (rmap ++ [("sng", "sng_" ++ r)]).lookup k = rmap.lookup k)
    ∧ (∀ r', r' ≠ r →
        (create_ptg_objects reg efficiencies storage_parameter costs
          (some [r])).1.lookup r' = reg.lookup r')
    ∧ PtgObj.sngToNaturalGas r 0 1 ∈
        (create_ptg_objects reg efficiencies storage_parameter costs (some [r])).2.1 := by
  obtain ⟨elv, helv⟩ := Option.isSome_iff_exists.mp hel
  obtain ⟨ngv, hngv⟩ := Option.isSome_iff_exists.mp hng
  have hrm' : dict_insert rmap "sng" ("sng_" ++ r) = rmap ++ [("sng", "sng_" ++ r)] := by
    simp [dict_insert, hsng]
  have hel' : (rmap ++ [("sng", "sng_" ++ r)]).lookup "electricity" = some elv :=
    lookup_append_some _ helv
  have hng' : (rmap ++ [("sng", "sng_" ++ r)]).lookup "natural_gas" = some ngv :=
    lookup_append_some _ hngv
  have hnodes : ptg_nodes efficiencies storage_parameter costs
      (rmap ++ [("sng", "sng_" ++ r)]) r =
      .ok [PtgObj.ptgTransformer r cptg.opex_var (cptg.epc + cptg.opex_fix)
             eptg.conversion_factor,
           PtgObj.sngToNaturalGas r 0 1,
           PtgObj.gasStorage r cgas.opex_var sgas.capacity_loss 0
             (1 / sgas.energy_power_ratio_in) (1 / sgas.energy_power_ratio_out)
             sgas.efficiency_in sgas.efficiency_out (cgas.epc + cgas.opex_fix)] := by
    unfold ptg_nodes locE pydiv
    rw [hel', hcp, hep, hng', hcg, hsg]
    simp only [except_bind_ok]
    rw [if_neg hin, if_neg hout]
    simp only [except_bind_ok]
  have hstep : ptg_region_step efficiencies storage_parameter costs reg r =
      (registry_update reg r (rmap ++ [("sng", "sng_" ++ r)]),
       [PtgObj.ptgTransformer r cptg.opex_var (cptg.epc + cptg.opex_fix)
          eptg.conversion_factor,
        PtgObj.sngToNaturalGas r 0 1,
        PtgObj.gasStorage r cgas.opex_var sgas.capacity_loss 0
          (1 / sgas.energy_power_ratio_in) (1 / sgas.energy_power_ratio_out)
          sgas.efficiency_in sgas.efficiency_out (cgas.epc + cgas.opex_fix)],
       none) := by
    unfold ptg_region_step
    rw [hreg]
    simp only [hrm', hnodes]
  have hres : create_ptg_objects reg efficiencies storage_parameter costs (some [r]) =
      (registry_update reg r (rmap ++ [("sng", "sng_" ++ r)]),
       [PtgObj.ptgTransformer r cptg.opex_var (cptg.epc + cptg.opex_fix)
          eptg.conversion_factor,
        PtgObj.sngToNaturalGas r 0 1,
        PtgObj.gasStorage r cgas.opex_var sgas.capacity_loss 0
          (1 / sgas.energy_power_ratio_in) (1 / sgas.energy_power_ratio_out)
          sgas.efficiency_in sgas.efficiency_out (cgas.epc + cgas.opex_fix)],
       none) := by
    unfold create_ptg_objects
    simp only [Option.getD_some, create_ptg_go, hstep, List.append_nil]
  refine ⟨by rw [hres], ?_, lookup_append_single_eq _ hsng, by simp,
          fun k hk => lookup_append_single_ne _ _ hk, fun r' hr' => ?_,
          by rw [hres]; simp⟩
  · rw [hres]
    exact registry_update_lookup_self _ (by rw [hreg]; rfl)
  · rw [hres]
    exact registry_update_lookup_other _ hr'


/-- Witness for C6 on a one-region registry with electricity and
natural_gas buses and concrete parameter rows. -/
theorem create_ptg_mutation_witness :
    (create_ptg_objects [("a", [("electricity", "el_a"), ("natural_gas", "ng_a")])]
        [("ptg", EffRow.mk (7/10))]
        [("gas", StorageRow.mk (1/100) (9/10) (2/5) 10 10)]
        [("ptg", CostRow.mk 1 2 3), ("gas", CostRow.mk 4 5 6)]
        (some ["a"])).2.2 = none
    ∧ (create_ptg_objects [("a", [("electricity", "el_a"), ("natural_gas", "ng_a")])]
        [("ptg", EffRow.mk (7/10))]
        [("gas", StorageRow.mk (1/100) (9/10) (2/5) 10 10)]
        [("ptg", CostRow.mk 1 2 3), ("gas", CostRow.mk 4 5 6)]
        (some ["a"])).1.lookup "a" =
      some ([("electricity", "el_a"), ("natural_gas", "ng_a")] ++ [("sng", "sng_" ++ "a")])
    ∧ PtgObj.sngToNaturalGas "a" 0 1 ∈
      (create_ptg_objects [("a", [("electricity", "el_a"), ("natural_gas", "ng_a")])]
        [("ptg", EffRow.mk (7/10))]
        [("gas", StorageRow.mk (1/100) (9/10) (2/5) 10 10)]
        [("ptg", CostRow.mk 1 2 3), ("gas", CostRow.mk 4 5 6)]
        (some ["a"])).2.1 := by
  have h := create_ptg_mutation
    [("a", [("electricity", "el_a"), ("natural_gas", "ng_a")])]
    [("ptg", EffRow.mk (7/10))]
    [("gas", StorageRow.mk (1/100) (9/10) (2/5) 10 10)]
    [("ptg", CostRow.mk 1 2 3), ("gas", CostRow.mk 4 5 6)]
    "a" [("electricity", "el_a"), ("natural_gas", "ng_a")]
    (CostRow.mk 1 2 3) (CostRow.mk 4 5 6) (EffRow.mk (7/10))
    (StorageRow.mk (1/100) (9/10) (2/5) 10 10)
    rfl rfl rfl rfl rfl rfl rfl rfl (by norm_num) (by norm_num)
  exact ⟨h.1, h.2.1, h.2.2.2.2.2.2⟩


/-- A successful `Storage` construction implies its parameter row
existed and both capacity ratios are the inverted energy-power ratios of
that row. -/
theorem mk_storage_ok {buses : Registry} {parameter : StorageTable}
    {costs : CostTable} {region tech : String} {obj : StorageObj}
    (h : mk_storage buses parameter costs region tech = .ok obj) :
    ∃ prow, parameter.lookup tech = some prow ∧
      obj.tech = tech ∧
      obj.nominal_input_capacity_ratio = 1 / prow.energy_power_ratio_in ∧
      obj.nominal_output_capacity_ratio = 1 / prow.energy_power_ratio_out := by
  unfold mk_storage locE pydiv at h
  rcases h1 : buses.lookup region with _ | rmap <;> rw [h1] at h <;>
    simp only [except_bind_ok, except_bind_error] at h
  · cases h
  rcases h2 : rmap.lookup "electricity" with _ | eb <;> rw [h2] at h <;>
    simp only [except_bind_ok, except_bind_error] at h
  · cases h
  rcases h3 : costs.lookup tech with _ | crow <;> rw [h3] at h <;>
    simp only [except_bind_ok, except_bind_error] at h
  · cases h
  rcases h4 : parameter.lookup tech with _ | prow <;> rw [h4] at h <;>
    simp only [except_bind_ok, except_bind_error] at h
  · cases h
  by_cases hin : prow.energy_power_ratio_in = 0
  · rw [if_pos hin] at h
    simp only [except_bind_error] at h
    cases h
  rw [if_neg hin] at h
  simp only [except_bind_ok] at h
  by_cases hout : prow.energy_power_ratio_out = 0
  · rw [if_pos hout] at h
    simp only [except_bind_error] at h
    cases h
  rw [if_neg hout] at h
  simp only [except_bind_ok] at h
  cases h
  exact ⟨prow, rfl, rfl, rfl, rfl⟩

/-- Claim C9: every storage node the storage attacher creates has
`nominal_input_capacity_ratio = 1 / energy_power_ratio_in` and
`nominal_output_capacity_ratio = 1 / energy_power_ratio_out` taken from
its technology's parameter row. -/
theorem create_storages_ratio_inversion (buses : Registry)
    (parameter : StorageTable) (technologies : List String) (costs : CostTable)
    (regions : Option (List String)) :
    ∀ obj ∈ (create_storages buses parameter technologies costs regions).1,
      ∃ prow, parameter.lookup obj.tech = some prow ∧
        obj.nominal_input_capacity_ratio = 1 / prow.energy_power_ratio_in ∧
        obj.nominal_output_capacity_ratio = 1 / prow.energy_power_ratio_out := by
  intro obj hobj
  have hok := mem_runSteps hobj
  rw [List.mem_flatMap] at hok
  obtain ⟨r', hr', hm⟩ := hok
  rw [List.mem_map] at hm
  obtain ⟨tech, htech, hmk⟩ := hm
  obtain ⟨prow, hp, hteq, hnicr, hnocr⟩ := mk_storage_ok hmk
  exact ⟨prow, by rw [hteq]; exact hp, hnicr, hnocr⟩

/-- Witness for C9: a battery row with `energy_power_ratio_in = 4`
yields a created storage with ratio `1/4 = 0.25`. -/
theorem create_storages_ratio_inversion_witness :
    ∃ prow, ([("battery", StorageRow.mk 0 (9/10) (9/10) 4 4)] : StorageTable).lookup
        (StorageObj.mk "battery" "a" 1 0 0 (1/4) (1/4) (9/10) (9/10) 5).tech = some prow ∧
      (StorageObj.mk "battery" "a" 1 0 0 (1/4) (1/4) (9/10) (9/10)
        5).nominal_input_capacity_ratio = 1 / prow.energy_power_ratio_in ∧
      (StorageObj.mk "battery" "a" 1 0 0 (1/4) (1/4) (9/10) (9/10)
        5).nominal_output_capacity_ratio = 1 / prow.energy_power_ratio_out :=
  create_storages_ratio_inversion
    [("a", [("electricity", "el_a")])]
    [("battery", StorageRow.mk 0 (9/10) (9/10) 4 4)]
    ["battery"]
    [("battery", CostRow.mk 1 2 3)]
    (some ["a"])
    (StorageObj.mk "battery" "a" 1 0 0 (1/4) (1/4) (9/10) (9/10) 5)
    (by norm_num [create_storages, runSteps, mk_storage, locE, pydiv, List.lookup])

end EuropePSTrans
